import Mathlib

/-!
Shallow embedding of the layered RBAC/ABAC permission-resolution engine of
`contracts/vision_records/src/rbac.rs` (soroban contract module).

Soroban `Address` is modelled as `Nat`, soroban `String` as Lean `String`,
`u64` timestamps as `Nat` (the code never does timestamp arithmetic, only
comparisons, so wrap-around cannot occur), soroban `Vec<T>` as `List T`
(`push_back` = append, `contains` = membership, rebuilding loops = `filter`).
The persistent key-value store and the ledger clock (`env.ledger().timestamp()`)
are gathered into one explicit `Store` record; each keyed map of the contract
storage becomes one field.  Mutating entry points become `Store → Store`
functions (fallible ones return an `Except Unit Unit` outcome paired with the
resulting store: the Rust functions perform no writes before their early
`return Err`, which the pairing makes explicit).
-/

namespace VisionRbac

/-- Soroban `Address`, modelled as a natural number. -/
abbrev Addr := Nat

/-- Group names (soroban `String`). -/
abbrev GroupName := String

/-- Policy identifiers (soroban `String`). -/
abbrev PolicyId := String

/-- Permission enum of rbac.rs. -/
inductive Permission
  | ReadAnyRecord
  | WriteRecord
  | ManageAccess
  | ManageUsers
  | SystemAdmin
deriving DecidableEq, Repr

/-- Role enum of rbac.rs. -/
inductive Role
  | None
  | Patient
  | Staff
  | Optometrist
  | Ophthalmologist
  | Admin
deriving DecidableEq, Repr

/-- TimeRestriction enum of rbac.rs. -/
inductive TimeRestriction
  | None
  | BusinessHours
  | HourRange (start_hour end_hour : Nat)
  | DaysOfWeek (day_mask : Nat)
deriving DecidableEq, Repr

/-- CredentialType enum of rbac.rs. -/
inductive CredentialType
  | None
  | MedicalLicense
  | ResearchCredentials
  | EmergencyCredentials
  | AdminCredentials
deriving DecidableEq, Repr

/-- SensitivityLevel enum of rbac.rs. -/
inductive SensitivityLevel
  | Public
  | Standard
  | Confidential
  | Restricted
deriving DecidableEq, Repr

/-- The `as u32` discriminant cast used by the sensitivity comparison. -/
def SensitivityLevel.toNat : SensitivityLevel → Nat
  | .Public => 0
  | .Standard => 1
  | .Confidential => 2
  | .Restricted => 3

/-- PolicyConditions struct of rbac.rs. -/
structure PolicyConditions where
  required_role : Role
  time_restriction : TimeRestriction
  required_credential : CredentialType
  min_sensitivity_level : SensitivityLevel
  consent_required : Bool
deriving DecidableEq, Repr

/-- AccessPolicy struct of rbac.rs. -/
structure AccessPolicy where
  id : PolicyId
  name : String
  conditions : PolicyConditions
  enabled : Bool
deriving DecidableEq, Repr

/-- RoleAssignment struct of rbac.rs; `expires_at = 0` means never expires. -/
structure RoleAssignment where
  role : Role
  custom_grants : List Permission
  custom_revokes : List Permission
  expires_at : Nat
deriving DecidableEq, Repr

/-- Delegation struct of rbac.rs (full-role delegation). -/
structure Delegation where
  delegator : Addr
  delegatee : Addr
  role : Role
  expires_at : Nat
deriving DecidableEq, Repr

/-- ScopedDelegation struct of rbac.rs. -/
structure ScopedDelegation where
  delegator : Addr
  delegatee : Addr
  permissions : List Permission
  expires_at : Nat
deriving DecidableEq, Repr

/-- AclGroup struct of rbac.rs. -/
structure AclGroup where
  name : GroupName
  permissions : List Permission
deriving DecidableEq, Repr

/-- Modelled from the spec: `crate::ConsentType` is declared outside the
provided sources; it is an inert payload for every operation modelled here,
so a one-constructor placeholder is faithful. -/
inductive ConsentType
  | Basic
deriving DecidableEq, Repr

/-- ConsentGrant struct of rbac.rs. -/
structure ConsentGrant where
  patient : Addr
  grantee : Addr
  consent_type : ConsentType
  granted_at : Nat
  expires_at : Nat
  revoked : Bool
deriving DecidableEq, Repr

/-- PolicyContext struct of rbac.rs. -/
structure PolicyContext where
  user : Addr
  resource_id : Option Nat
  patient : Option Addr
  current_time : Nat
deriving DecidableEq, Repr

/-- The contract's persistent storage (one field per key family of rbac.rs)
together with the ledger clock `env.ledger().timestamp()`. -/
structure Store where
  assignments : Addr → Option RoleAssignment
  delegations : Addr → Addr → Option Delegation
  scopedDelegations : Addr → Addr → Option ScopedDelegation
  delegateeIndex : Addr → List Addr
  groups : GroupName → Option AclGroup
  userGroups : Addr → List GroupName
  policies : PolicyId → Option AccessPolicy
  credentials : Addr → Option CredentialType
  sensitivities : Nat → Option SensitivityLevel
  consents : Addr → Addr → Option ConsentGrant
  ledgerTime : Nat

/-- The store with nothing written and ledger time 0. -/
def empty_store : Store where
  assignments := fun _ => none
  delegations := fun _ _ => none
  scopedDelegations := fun _ _ => none
  delegateeIndex := fun _ => []
  groups := fun _ => none
  userGroups := fun _ => []
  policies := fun _ => none
  credentials := fun _ => none
  sensitivities := fun _ => none
  consents := fun _ _ => none
  ledgerTime := 0

/-- Advance (or set) the ledger clock; storage contents are untouched. -/
def set_ledger_time (s : Store) (t : Nat) : Store := { s with ledgerTime := t }

/-- get_base_permissions of rbac.rs: the sequence of conditional push_backs,
as a list append chain. -/
def get_base_permissions (role : Role) : List Permission :=
  (if role = Role.Admin then [Permission.SystemAdmin] else []) ++
  (if role = Role.Admin ∨ role = Role.Ophthalmologist ∨ role = Role.Optometrist ∨
      role = Role.Staff then [Permission.ManageUsers] else []) ++
  (if role = Role.Admin ∨ role = Role.Ophthalmologist ∨ role = Role.Optometrist then
    [Permission.WriteRecord, Permission.ManageAccess, Permission.ReadAnyRecord] else [])

/-- assign_role of rbac.rs: overwrite the user's assignment wholesale with
empty custom grant/revoke lists. -/
def assign_role (s : Store) (user : Addr) (role : Role) (expires_at : Nat) : Store :=
  { s with assignments := fun x =>
      if x = user then
        some { role := role, custom_grants := [], custom_revokes := [], expires_at := expires_at }
      else s.assignments x }

/-- get_active_assignment of rbac.rs: the stored assignment, unless expired
(`expires_at = 0` means never expires). -/
def get_active_assignment (s : Store) (user : Addr) : Option RoleAssignment :=
  match s.assignments user with
  | some assignment =>
      if assignment.expires_at = 0 ∨ assignment.expires_at > s.ledgerTime then some assignment
      else none
  | none => none

/-- grant_custom_permission of rbac.rs: error when no active assignment;
otherwise drop the permission from custom_revokes (rebuild loop = filter) and
append it to custom_grants when absent.  The Rust code performs no storage
writes before its early error return, hence the error case pairs the outcome
with the unchanged store. -/
def grant_custom_permission (s : Store) (user : Addr) (permission : Permission) :
    Except Unit Unit × Store :=
  match get_active_assignment s user with
  | none => (Except.error (), s)
  | some assignment =>
      let new_revokes := assignment.custom_revokes.filter (fun r => decide (r ≠ permission))
      let new_grants :=
        if permission ∈ assignment.custom_grants then assignment.custom_grants
        else assignment.custom_grants ++ [permission]
      let a := { assignment with custom_revokes := new_revokes, custom_grants := new_grants }
      (Except.ok (), { s with assignments := fun x => if x = user then some a else s.assignments x })

/-- revoke_custom_permission of rbac.rs: symmetric to grant. -/
def revoke_custom_permission (s : Store) (user : Addr) (permission : Permission) :
    Except Unit Unit × Store :=
  match get_active_assignment s user with
  | none => (Except.error (), s)
  | some assignment =>
      let new_grants := assignment.custom_grants.filter (fun g => decide (g ≠ permission))
      let new_revokes :=
        if permission ∈ assignment.custom_revokes then assignment.custom_revokes
        else assignment.custom_revokes ++ [permission]
      let a := { assignment with custom_grants := new_grants, custom_revokes := new_revokes }
      (Except.ok (), { s with assignments := fun x => if x = user then some a else s.assignments x })

/-- delegate_role of rbac.rs: upsert the full-role delegation and append the
delegator to the delegatee's reverse index (deduplicated). -/
def delegate_role (s : Store) (delegator delegatee : Addr) (role : Role) (expires_at : Nat) :
    Store :=
  let del : Delegation :=
    { delegator := delegator, delegatee := delegatee, role := role, expires_at := expires_at }
  let s1 := { s with delegations := fun a b =>
      if a = delegator ∧ b = delegatee then some del else s.delegations a b }
  let idx := s1.delegateeIndex delegatee
  let idx2 := if delegator ∈ idx then idx else idx ++ [delegator]
  { s1 with delegateeIndex := fun b => if b = delegatee then idx2 else s1.delegateeIndex b }

/-- get_active_delegation of rbac.rs. -/
def get_active_delegation (s : Store) (delegator delegatee : Addr) : Option Delegation :=
  match s.delegations delegator delegatee with
  | some del => if del.expires_at = 0 ∨ del.expires_at > s.ledgerTime then some del else none
  | none => none

/-- delegate_permissions of rbac.rs: no-op on an empty permission list,
otherwise upsert the scoped delegation and update the reverse index. -/
def delegate_permissions (s : Store) (delegator delegatee : Addr)
    (permissions : List Permission) (expires_at : Nat) : Store :=
  if permissions.isEmpty then s
  else
    let del : ScopedDelegation :=
      { delegator := delegator, delegatee := delegatee, permissions := permissions,
        expires_at := expires_at }
    let s1 := { s with scopedDelegations := fun a b =>
        if a = delegator ∧ b = delegatee then some del else s.scopedDelegations a b }
    let idx := s1.delegateeIndex delegatee
    let idx2 := if delegator ∈ idx then idx else idx ++ [delegator]
    { s1 with delegateeIndex := fun b => if b = delegatee then idx2 else s1.delegateeIndex b }

/-- get_active_scoped_delegation of rbac.rs. -/
def get_active_scoped_delegation (s : Store) (delegator delegatee : Addr) :
    Option ScopedDelegation :=
  match s.scopedDelegations delegator delegatee with
  | some del => if del.expires_at = 0 ∨ del.expires_at > s.ledgerTime then some del else none
  | none => none

/-- create_group of rbac.rs. -/
def create_group (s : Store) (name : GroupName) (permissions : List Permission) : Store :=
  { s with groups := fun n =>
      if n = name then some { name := name, permissions := permissions } else s.groups n }

/-- delete_group of rbac.rs. -/
def delete_group (s : Store) (name : GroupName) : Store :=
  { s with groups := fun n => if n = name then none else s.groups n }

/-- add_to_group of rbac.rs: error when the group does not exist (checked
before any write); otherwise idempotently append the group name to the
user's membership list. -/
def add_to_group (s : Store) (user : Addr) (group_name : GroupName) :
    Except Unit Unit × Store :=
  if (s.groups group_name).isNone then (Except.error (), s)
  else
    let groups := s.userGroups user
    if group_name ∈ groups then (Except.ok (), s)
    else
      (Except.ok (), { s with userGroups := fun x =>
        if x = user then groups ++ [group_name] else s.userGroups x })

/-- remove_from_group of rbac.rs (rebuild loop = filter). -/
def remove_from_group (s : Store) (user : Addr) (group_name : GroupName) : Store :=
  { s with userGroups := fun x =>
      if x = user then (s.userGroups user).filter (fun g => decide (g ≠ group_name))
      else s.userGroups x }

/-- get_group_permissions of rbac.rs: empty list when the group is absent. -/
def get_group_permissions (s : Store) (name : GroupName) : List Permission :=
  match s.groups name with
  | some group => group.permissions
  | none => []

/-- The group loop at the end of has_permission in rbac.rs. -/
def group_permission_check (s : Store) (user : Addr) (permission : Permission) : Bool :=
  (s.userGroups user).any (fun g => decide (permission ∈ get_group_permissions s g))

/-- has_permission of rbac.rs: revoke, then grant, then base role on the
active assignment, falling through to the group loop. -/
def has_permission (s : Store) (user : Addr) (permission : Permission) : Bool :=
  match get_active_assignment s user with
  | some assignment =>
      if permission ∈ assignment.custom_revokes then false
      else if permission ∈ assignment.custom_grants then true
      else if permission ∈ get_base_permissions assignment.role then true
      else group_permission_check s user permission
  | none => group_permission_check s user permission

/-- has_delegated_permission of rbac.rs: the full-role branch, then the
scoped branch. -/
def has_delegated_permission (s : Store) (delegator delegatee : Addr)
    (permission : Permission) : Bool :=
  (match get_active_delegation s delegator delegatee with
   | some delegation => decide (permission ∈ get_base_permissions delegation.role)
   | none => false) ||
  (match get_active_scoped_delegation s delegator delegatee with
   | some sd => decide (permission ∈ sd.permissions)
   | none => false)

/-- satisfies_time_restriction of rbac.rs: all variants read the ledger
clock, never the policy context. -/
def satisfies_time_restriction (s : Store) (restriction : TimeRestriction) : Bool :=
  match restriction with
  | TimeRestriction.None => true
  | TimeRestriction.BusinessHours =>
      let hour := (s.ledgerTime / 3600) % 24
      decide (hour ≥ 9 ∧ hour ≤ 17)
  | TimeRestriction.HourRange start_hour end_hour =>
      let hour := (s.ledgerTime / 3600) % 24
      if start_hour ≤ end_hour then decide (hour ≥ start_hour ∧ hour ≤ end_hour)
      else decide (hour ≥ start_hour ∨ hour ≤ end_hour)
  | TimeRestriction.DaysOfWeek day_mask =>
      let day_of_week := ((s.ledgerTime / 86400) + 4) % 7
      decide (day_mask &&& (1 <<< day_of_week) ≠ 0)

/-- get_user_credential of rbac.rs (default CredentialType.None). -/
def get_user_credential (s : Store) (user : Addr) : CredentialType :=
  (s.credentials user).getD CredentialType.None

/-- get_record_sensitivity of rbac.rs (default SensitivityLevel.Standard). -/
def get_record_sensitivity (s : Store) (record_id : Nat) : SensitivityLevel :=
  (s.sensitivities record_id).getD SensitivityLevel.Standard

/-- The required_role block of evaluate_policy in rbac.rs. -/
def role_condition_met (s : Store) (user : Addr) (required : Role) : Bool :=
  if required = Role.None then true
  else
    match get_active_assignment s user with
    | some assignment => decide (assignment.role = required)
    | none => false

/-- The required_credential block of evaluate_policy in rbac.rs. -/
def credential_condition_met (s : Store) (user : Addr) (required : CredentialType) : Bool :=
  if required = CredentialType.None then true
  else decide (get_user_credential s user = required)

/-- The sensitivity block of evaluate_policy in rbac.rs (the `as u32`
comparison on discriminants). -/
def sensitivity_condition_met (s : Store) (resource_id : Option Nat)
    (min_level : SensitivityLevel) : Bool :=
  match resource_id with
  | some record_id => decide ((get_record_sensitivity s record_id).toNat ≥ min_level.toNat)
  | none => true

/-- The consent block of evaluate_policy in rbac.rs: this is the single
place where `context.current_time` is read. -/
def consent_condition_met (s : Store) (context : PolicyContext) (required : Bool) : Bool :=
  if required then
    match context.patient, context.resource_id with
    | some patient, some _ =>
        match s.consents patient context.user with
        | some consent => !(consent.revoked || decide (consent.expires_at ≤ context.current_time))
        | none => false
    | _, _ => false
  else true

/-- evaluate_policy of rbac.rs: the early-return chain of pure checks,
written as a short-circuit conjunction. -/
def evaluate_policy (s : Store) (policy : AccessPolicy) (context : PolicyContext) : Bool :=
  if !policy.enabled then false
  else
    role_condition_met s context.user policy.conditions.required_role &&
    satisfies_time_restriction s policy.conditions.time_restriction &&
    credential_condition_met s context.user policy.conditions.required_credential &&
    sensitivity_condition_met s context.resource_id policy.conditions.min_sensitivity_level &&
    consent_condition_met s context policy.conditions.consent_required

/-- set_user_credential of rbac.rs. -/
def set_user_credential (s : Store) (user : Addr) (credential : CredentialType) : Store :=
  { s with credentials := fun x => if x = user then some credential else s.credentials x }

/-- set_record_sensitivity of rbac.rs. -/
def set_record_sensitivity (s : Store) (record_id : Nat) (sensitivity : SensitivityLevel) :
    Store :=
  { s with sensitivities := fun x => if x = record_id then some sensitivity else s.sensitivities x }

/-- create_access_policy of rbac.rs. -/
def create_access_policy (s : Store) (policy : AccessPolicy) : Store :=
  { s with policies := fun x => if x = policy.id then some policy else s.policies x }

/-! Concrete stores, policies and contexts used to instantiate the theorems
below on closed inputs. -/

/-- A user (address 0) holding Optometrist with an assignment expiring at 100. -/
def c4_store : Store := assign_role empty_store 0 Role.Optometrist 100

/-- A user (address 0) holding Optometrist with a never-expiring assignment. -/
def c7_store : Store := assign_role empty_store 0 Role.Optometrist 0

/-- An enabled policy whose only nontrivial condition is the hour range 9–17. -/
def hour_range_policy : AccessPolicy where
  id := "hr"
  name := "hr"
  conditions :=
    { required_role := Role.None
      time_restriction := TimeRestriction.HourRange 9 17
      required_credential := CredentialType.None
      min_sensitivity_level := SensitivityLevel.Public
      consent_required := false }
  enabled := true

/-- The empty store with the ledger clock at hour 3 of day 0. -/
def store_at_hour3 : Store := set_ledger_time empty_store (3 * 3600)

/-- The empty store with the ledger clock at hour 12 of day 0. -/
def store_at_hour12 : Store := set_ledger_time empty_store (12 * 3600)

/-- A policy context whose current_time field reads hour 12. -/
def ctx_at_hour12 : PolicyContext where
  user := 0
  resource_id := none
  patient := none
  current_time := 12 * 3600

/-- A policy context whose current_time field reads hour 3. -/
def ctx_at_hour3 : PolicyContext where
  user := 0
  resource_id := none
  patient := none
  current_time := 3 * 3600

/-- A stored consent grant whose expires_at is 0. -/
def zero_expiry_consent : ConsentGrant where
  patient := 2
  grantee := 3
  consent_type := ConsentType.Basic
  granted_at := 0
  expires_at := 0
  revoked := false

/-- A store holding only the zero-expiry consent from patient 2 to user 3. -/
def zero_expiry_consent_store : Store :=
  { empty_store with consents := fun a b =>
      if a = 2 ∧ b = 3 then some zero_expiry_consent else none }

/-- An enabled policy whose only nontrivial condition is consent_required. -/
def consent_only_policy : AccessPolicy where
  id := "co"
  name := "co"
  conditions :=
    { required_role := Role.None
      time_restriction := TimeRestriction.None
      required_credential := CredentialType.None
      min_sensitivity_level := SensitivityLevel.Public
      consent_required := true }
  enabled := true

/-- A context for user 3 reading patient 2's record 7 at time 1000. -/
def consent_ctx : PolicyContext where
  user := 3
  resource_id := some 7
  patient := some 2
  current_time := 1000

/-- The custom-overlay consistency invariant: no stored assignment holds a
permission in both its custom_grants and its custom_revokes. -/
def overlays_disjoint (s : Store) : Prop :=
  ∀ u a, s.assignments u = some a →
    ∀ p, ¬(p ∈ a.custom_grants ∧ p ∈ a.custom_revokes)

/-- One application of any mutation entry point of the engine (for the
fallible ones, the store the call leaves behind whether it succeeds or
errors), or a move of the ledger clock between calls. -/
inductive Step : Store → Store → Prop
  | assignRole (s : Store) (u : Addr) (role : Role) (expires_at : Nat) :
      Step s (assign_role s u role expires_at)
  | grantCustom (s : Store) (u : Addr) (p : Permission) :
      Step s (grant_custom_permission s u p).2
  | revokeCustom (s : Store) (u : Addr) (p : Permission) :
      Step s (revoke_custom_permission s u p).2
  | delegateRole (s : Store) (d e : Addr) (role : Role) (expires_at : Nat) :
      Step s (delegate_role s d e role expires_at)
  | delegatePermissions (s : Store) (d e : Addr) (perms : List Permission) (expires_at : Nat) :
      Step s (delegate_permissions s d e perms expires_at)
  | createGroup (s : Store) (n : GroupName) (perms : List Permission) :
      Step s (create_group s n perms)
  | deleteGroup (s : Store) (n : GroupName) :
      Step s (delete_group s n)
  | addToGroup (s : Store) (u : Addr) (g : GroupName) :
      Step s (add_to_group s u g).2
  | removeFromGroup (s : Store) (u : Addr) (g : GroupName) :
      Step s (remove_from_group s u g)
  | createPolicy (s : Store) (pol : AccessPolicy) :
      Step s (create_access_policy s pol)
  | setCredential (s : Store) (u : Addr) (c : CredentialType) :
      Step s (set_user_credential s u c)
  | setSensitivity (s : Store) (rid : Nat) (lvl : SensitivityLevel) :
      Step s (set_record_sensitivity s rid lvl)
  | tick (s : Store) (t : Nat) :
      Step s (set_ledger_time s t)

/-- States reachable from the empty store by the engine's operations. -/
inductive Reachable : Store → Prop
  | empty : Reachable empty_store
  | step {s s' : Store} : Reachable s → Step s s' → Reachable s'


theorem mem_get_group_permissions_iff (s : Store) (g : GroupName) (p : Permission) :
    p ∈ get_group_permissions s g ↔ ∃ grp, s.groups g = some grp ∧ p ∈ grp.permissions := by
  unfold get_group_permissions
  cases h : s.groups g <;> simp

theorem group_permission_check_iff (s : Store) (u : Addr) (p : Permission) :
    group_permission_check s u p = true ↔
      ∃ g ∈ s.userGroups u, ∃ grp, s.groups g = some grp ∧ p ∈ grp.permissions := by
  simp [group_permission_check, List.any_eq_true, mem_get_group_permissions_iff]

/-- C1: has_permission follows the five-step precedence order of the spec:
revoke on the active assignment denies; else custom grant allows; else the
role's base permissions allow; else any currently existing group of the
user's membership list containing the permission allows; else deny.  In
particular a custom revoke on the active assignment forces the result false
regardless of grants, role or groups. -/
theorem has_permission_five_step_precedence (s : Store) (u : Addr) (p : Permission) :
    (has_permission s u p = true ↔
      (match get_active_assignment s u with
       | some a =>
           p ∉ a.custom_revokes ∧
             (p ∈ a.custom_grants ∨ p ∈ get_base_permissions a.role ∨
               ∃ g ∈ s.userGroups u, ∃ grp, s.groups g = some grp ∧ p ∈ grp.permissions)
       | none => ∃ g ∈ s.userGroups u, ∃ grp, s.groups g = some grp ∧ p ∈ grp.permissions)) ∧
    (∀ a, get_active_assignment s u = some a → p ∈ a.custom_revokes →
      has_permission s u p = false) := by
  constructor
  · unfold has_permission
    cases h : get_active_assignment s u with
    | none => simpa using group_permission_check_iff s u p
    | some a =>
        by_cases h1 : p ∈ a.custom_revokes
        · simp [h1]
        · by_cases h2 : p ∈ a.custom_grants
          · simp [h1, h2]
          · by_cases h3 : p ∈ get_base_permissions a.role
            · simp [h1, h2, h3]
            · simpa [h1, h2, h3] using group_permission_check_iff s u p
  · intro a ha hrev
    unfold has_permission
    rw [ha]
    simp [hrev]

/-- C2: has_delegated_permission holds exactly when an active full-role
delegation's base permissions contain the permission or an active scoped
delegation lists it; the two forms are checked independently and nothing
else of the delegator's state is consulted. -/
theorem has_delegated_permission_iff (s : Store) (d e : Addr) (p : Permission) :
    has_delegated_permission s d e p = true ↔
      (∃ dl, get_active_delegation s d e = some dl ∧ p ∈ get_base_permissions dl.role) ∨
      (∃ sd, get_active_scoped_delegation s d e = some sd ∧ p ∈ sd.permissions) := by
  unfold has_delegated_permission
  cases h1 : get_active_delegation s d e <;>
    cases h2 : get_active_scoped_delegation s d e <;> simp [h1, h2]

/-- C6: the HourRange restriction, with hour-of-day computed as
(timestamp / 3600) % 24, is satisfied exactly on the inclusive range when
start is at most end, and exactly on the wrapped range otherwise; at hours
23 and 2 the range 22–6 is satisfied, at hour 12 it is not. -/
theorem hour_range_semantics (s : Store) (a b : Nat) :
    (satisfies_time_restriction s (TimeRestriction.HourRange a b) = true ↔
      ((a ≤ b ∧ a ≤ (s.ledgerTime / 3600) % 24 ∧ (s.ledgerTime / 3600) % 24 ≤ b) ∨
       (b < a ∧ (a ≤ (s.ledgerTime / 3600) % 24 ∨ (s.ledgerTime / 3600) % 24 ≤ b)))) ∧
    satisfies_time_restriction (set_ledger_time s (23 * 3600))
      (TimeRestriction.HourRange 22 6) = true ∧
    satisfies_time_restriction (set_ledger_time s (2 * 3600))
      (TimeRestriction.HourRange 22 6) = true ∧
    satisfies_time_restriction (set_ledger_time s (12 * 3600))
      (TimeRestriction.HourRange 22 6) = false := by
  have hc : ∀ t : Nat, satisfies_time_restriction (set_ledger_time s t) (TimeRestriction.HourRange 22 6) = ((t / 3600) % 24 ≥ 22 || (t / 3600) % 24 ≤ 6) := by
    intro t
    simp [satisfies_time_restriction, set_ledger_time]
  refine ⟨?_, by rw [hc]; decide, by rw [hc]; decide, by rw [hc]; decide⟩
  unfold satisfies_time_restriction
  generalize (s.ledgerTime / 3600) % 24 = h
  by_cases hab : a ≤ b
  · simp only [if_pos hab, decide_eq_true_eq]
    omega
  · simp only [if_neg hab, decide_eq_true_eq]
    omega


/-- C8: grant/revoke of a custom permission error exactly when the user has
no active assignment, add_to_group errors exactly when the group does not
exist, every error leaves the store unchanged, and every non-error case
returns success. -/
theorem mutation_error_conditions (s : Store) (u : Addr) (p : Permission) (g : GroupName) :
    ((grant_custom_permission s u p).1 = Except.error () ↔ get_active_assignment s u = none) ∧
    ((grant_custom_permission s u p).1 = Except.error () →
      (grant_custom_permission s u p).2 = s) ∧
    ((grant_custom_permission s u p).1 = Except.ok () ↔
      (get_active_assignment s u).isSome = true) ∧
    ((revoke_custom_permission s u p).1 = Except.error () ↔ get_active_assignment s u = none) ∧
    ((revoke_custom_permission s u p).1 = Except.error () →
      (revoke_custom_permission s u p).2 = s) ∧
    ((revoke_custom_permission s u p).1 = Except.ok () ↔
      (get_active_assignment s u).isSome = true) ∧
    ((add_to_group s u g).1 = Except.error () ↔ s.groups g = none) ∧
    ((add_to_group s u g).1 = Except.error () → (add_to_group s u g).2 = s) ∧
    ((add_to_group s u g).1 = Except.ok () ↔ (s.groups g).isSome = true) := by
  refine ⟨?_, ?_, ?_, ?_, ?_, ?_, ?_, ?_, ?_⟩ <;>
    first
    | (cases h : get_active_assignment s u <;>
        simp [grant_custom_permission, revoke_custom_permission, h])
    | (cases h : s.groups g <;>
        by_cases hm : g ∈ s.userGroups u <;>
        simp [add_to_group, h, hm])

/-- C9: delegate_role checks nothing about the delegator; after delegating a
role with expires_at 0 from any store state whatsoever, the delegatee holds
every base permission of the role through has_delegated_permission, at every
ledger time. -/
theorem delegate_role_requires_no_delegator_authority (s : Store) (d e : Addr) (r : Role)
    (p : Permission) (hp : p ∈ get_base_permissions r) :
    ∀ t : Nat,
      has_delegated_permission (set_ledger_time (delegate_role s d e r 0) t) d e p = true := by
  intro t
  have hdel : (set_ledger_time (delegate_role s d e r 0) t).delegations d e =
      some { delegator := d, delegatee := e, role := r, expires_at := 0 } := by
    simp [set_ledger_time, delegate_role]
  unfold has_delegated_permission get_active_delegation
  rw [hdel]
  simp [hp]

theorem delegate_role_requires_no_delegator_authority_witness :
    has_delegated_permission
      (set_ledger_time (delegate_role empty_store 0 1 Role.Optometrist 0) 12345)
      0 1 Permission.ManageAccess = true :=
  delegate_role_requires_no_delegator_authority empty_store 0 1 Role.Optometrist
    Permission.ManageAccess (by decide) 12345


/-- C5 counterexample: with the ledger clock at hour 3 and a context whose
current_time reads hour 12, the hour-range 9–17 policy evaluates false even
though hour 12 lies inside the range; with the ledger clock at hour 12 and a
context reading hour 3 it evaluates true.  The time-restriction outcome
therefore does not follow context.current_time. -/
theorem evaluate_policy_time_ignores_context_cex :
    evaluate_policy store_at_hour3 hour_range_policy ctx_at_hour12 = false ∧
    evaluate_policy store_at_hour12 hour_range_policy ctx_at_hour3 = true ∧
    (ctx_at_hour12.current_time / 3600) % 24 = 12 ∧
    (ctx_at_hour3.current_time / 3600) % 24 = 3 := by
  refine ⟨by decide, by decide, by decide, by decide⟩

/-- C5 amended: the time-restriction condition of evaluate_policy reads the
ledger clock of the store, not context.current_time; the context's
current_time field is consulted only by the consent check, so whenever
consent_required is false the evaluation is invariant under changing
current_time alone. -/
theorem evaluate_policy_time_uses_ledger_clock (s : Store) (pol : AccessPolicy)
    (ctx : PolicyContext) (t : Nat) (h : pol.conditions.consent_required = false) :
    evaluate_policy s pol { ctx with current_time := t } = evaluate_policy s pol ctx := by
  simp [evaluate_policy, consent_condition_met, h]

theorem evaluate_policy_time_uses_ledger_clock_witness :
    evaluate_policy store_at_hour3 hour_range_policy
        { ctx_at_hour3 with current_time := 999999 } =
      evaluate_policy store_at_hour3 hour_range_policy ctx_at_hour3 :=
  evaluate_policy_time_uses_ledger_clock store_at_hour3 hour_range_policy ctx_at_hour3
    999999 rfl

/-- C10: when a policy requires consent and the stored consent grant for the
context's (patient, user) pair carries expires_at 0, the check
expires_at <= current_time always fires, so the policy evaluates false at
every current_time — whereas a role assignment or a delegation stored with
expires_at 0 is returned as active forever. -/
theorem consent_zero_expiry_always_denied (s : Store) (pol : AccessPolicy)
    (ctx : PolicyContext) (patient : Addr) (consent : ConsentGrant)
    (hreq : pol.conditions.consent_required = true)
    (hpat : ctx.patient = some patient)
    (hcons : s.consents patient ctx.user = some consent)
    (hexp : consent.expires_at = 0) :
    evaluate_policy s pol ctx = false ∧
    (∀ (s' : Store) (u : Addr) (a : RoleAssignment),
      s'.assignments u = some a → a.expires_at = 0 → get_active_assignment s' u = some a) ∧
    (∀ (s' : Store) (d e : Addr) (dl : Delegation),
      s'.delegations d e = some dl → dl.expires_at = 0 →
        get_active_delegation s' d e = some dl) := by
  refine ⟨?_, ?_, ?_⟩
  · have hfail : consent_condition_met s ctx pol.conditions.consent_required = false := by
      rw [hreq]
      cases hrid : ctx.resource_id with
      | none => simp [consent_condition_met, hpat, hrid]
      | some rid => simp [consent_condition_met, hpat, hrid, hcons, hexp]
    simp [evaluate_policy, hfail]
  · intro s' u a ha h0
    simp [get_active_assignment, ha, h0]
  · intro s' d e dl hd h0
    simp [get_active_delegation, hd, h0]

theorem consent_zero_expiry_always_denied_witness :
    evaluate_policy zero_expiry_consent_store consent_only_policy consent_ctx = false :=
  (consent_zero_expiry_always_denied zero_expiry_consent_store consent_only_policy
    consent_ctx 2 zero_expiry_consent rfl rfl (by decide) rfl).1


theorem group_permission_check_eq_false_iff (s : Store) (u : Addr) (p : Permission) :
    group_permission_check s u p = false ↔
      ∀ g ∈ s.userGroups u, p ∉ get_group_permissions s g := by
  simp [group_permission_check, List.any_eq_false]

/-- C4: when a user's holding of a permission rests solely on one stored
assignment expiring at T with T nonzero (the permission is not revoked, is
granted or in the role's base set, and no group of the user supplies it),
has_permission is true at every ledger time strictly before T and false at
every ledger time strictly after T; past T the assignment is ignored by
get_active_assignment but still stored. -/
theorem has_permission_expiry_monotone (s : Store) (u : Addr) (a : RoleAssignment)
    (p : Permission) (T : Nat)
    (hstore : s.assignments u = some a) (hexp : a.expires_at = T) (hT : T ≠ 0)
    (hrev : p ∉ a.custom_revokes)
    (hperm : p ∈ a.custom_grants ∨ p ∈ get_base_permissions a.role)
    (hgrp : ∀ g ∈ s.userGroups u, p ∉ get_group_permissions s g) :
    ∀ t : Nat,
      (t < T → has_permission (set_ledger_time s t) u p = true) ∧
      (T < t →
        get_active_assignment (set_ledger_time s t) u = none ∧
        (set_ledger_time s t).assignments u = some a ∧
        has_permission (set_ledger_time s t) u p = false) := by
  intro t
  have hassign : (set_ledger_time s t).assignments u = some a := hstore
  have hgrpcheck : group_permission_check (set_ledger_time s t) u p = false := by
    rw [group_permission_check_eq_false_iff]
    intro g hg
    exact hgrp g hg
  constructor
  · intro hlt
    have hcond : a.expires_at = 0 ∨ a.expires_at > t := by omega
    have hactive : get_active_assignment (set_ledger_time s t) u = some a := by
      simp [get_active_assignment, set_ledger_time, hstore, hcond]
    rcases hperm with hg | hb
    · simp [has_permission, hactive, hrev, hg]
    · by_cases hg : p ∈ a.custom_grants
      · simp [has_permission, hactive, hrev, hg]
      · simp [has_permission, hactive, hrev, hg, hb]
  · intro hgt
    have hcond : ¬(a.expires_at = 0 ∨ a.expires_at > t) := by omega
    have hinactive : get_active_assignment (set_ledger_time s t) u = none := by
      simp [get_active_assignment, set_ledger_time, hstore, hcond]
    refine ⟨hinactive, hassign, ?_⟩
    simp [has_permission, hinactive, hgrpcheck]

theorem has_permission_expiry_monotone_witness :
    has_permission (set_ledger_time c4_store 99) 0 Permission.WriteRecord = true ∧
    has_permission (set_ledger_time c4_store 101) 0 Permission.WriteRecord = false := by
  have h := has_permission_expiry_monotone c4_store 0
    { role := Role.Optometrist, custom_grants := [], custom_revokes := [], expires_at := 100 }
    Permission.WriteRecord 100 rfl rfl (by decide) (by decide) (by decide)
    (by intro g hg; simp [c4_store, assign_role, empty_store] at hg)
  exact ⟨(h 99).1 (by decide), ((h 101).2 (by decide)).2.2⟩


theorem get_active_assignment_eq_stored {s : Store} {u : Addr} {a : RoleAssignment}
    (h : get_active_assignment s u = some a) : s.assignments u = some a := by
  unfold get_active_assignment at h
  cases hs : s.assignments u with
  | none => rw [hs] at h; exact absurd h (by simp)
  | some b =>
      rw [hs] at h
      by_cases hc : b.expires_at = 0 ∨ b.expires_at > s.ledgerTime
      · simp [hc] at h
        rw [h]
      · simp [hc] at h

theorem get_active_assignment_active {s : Store} {u : Addr} {a : RoleAssignment}
    (h : get_active_assignment s u = some a) :
    a.expires_at = 0 ∨ a.expires_at > s.ledgerTime := by
  unfold get_active_assignment at h
  cases hs : s.assignments u with
  | none => rw [hs] at h; exact absurd h (by simp)
  | some b =>
      rw [hs] at h
      by_cases hc : b.expires_at = 0 ∨ b.expires_at > s.ledgerTime
      · simp [hc] at h
        exact h ▸ hc
      · simp [hc] at h

/-- C3: from the empty store, every state the engine's mutation operations can
reach keeps each stored assignment's custom_grants and custom_revokes
disjoint. -/
theorem reachable_overlays_disjoint (s : Store) (hs : Reachable s) : overlays_disjoint s := by
  induction hs with
  | empty =>
      intro u a ha p hp
      simp [empty_store] at ha
  | @step s1 s2 hr hstep ih =>
      cases hstep with
      | assignRole u role expires_at =>
          intro v a ha p hp
          by_cases hv : v = u
          · subst hv
            simp [assign_role] at ha
            rw [← ha] at hp
            simp at hp
          · simp [assign_role, hv] at ha
            exact ih v a ha p hp
      | grantCustom u q =>
          intro v a ha p hp
          cases hga : get_active_assignment s1 u with
          | none =>
              simp [grant_custom_permission, hga] at ha
              exact ih v a ha p hp
          | some a0 =>
              simp [grant_custom_permission, hga] at ha
              by_cases hv : v = u
              · rw [if_pos hv] at ha
                have hstored := get_active_assignment_eq_stored hga
                have hold := ih u a0 hstored
                obtain ⟨hpg, hpr⟩ := hp
                injection ha with ha2
                subst ha2
                simp [List.mem_filter] at hpr
                obtain ⟨hpR, hpne⟩ := hpr
                have hpG : p ∈ a0.custom_grants := by
                  by_cases hq : q ∈ a0.custom_grants
                  · simpa [hq] using hpg
                  · simp [hq] at hpg
                    rcases hpg with h1 | h1
                    · exact h1
                    · exact absurd h1 hpne
                exact hold p ⟨hpG, hpR⟩
              · rw [if_neg hv] at ha
                exact ih v a ha p hp
      | revokeCustom u q =>
          intro v a ha p hp
          cases hga : get_active_assignment s1 u with
          | none =>
              simp [revoke_custom_permission, hga] at ha
              exact ih v a ha p hp
          | some a0 =>
              simp [revoke_custom_permission, hga] at ha
              by_cases hv : v = u
              · rw [if_pos hv] at ha
                have hstored := get_active_assignment_eq_stored hga
                have hold := ih u a0 hstored
                obtain ⟨hpg, hpr⟩ := hp
                injection ha with ha2
                subst ha2
                simp [List.mem_filter] at hpg
                obtain ⟨hpG, hpne⟩ := hpg
                have hpR : p ∈ a0.custom_revokes := by
                  by_cases hq : q ∈ a0.custom_revokes
                  · simpa [hq] using hpr
                  · simp [hq] at hpr
                    rcases hpr with h1 | h1
                    · exact h1
                    · exact absurd h1 hpne
                exact hold p ⟨hpG, hpR⟩
              · rw [if_neg hv] at ha
                exact ih v a ha p hp
      | delegateRole d e role expires_at =>
          intro v a ha p hp
          simp [delegate_role] at ha
          exact ih v a ha p hp
      | delegatePermissions d e perms expires_at =>
          intro v a ha p hp
          by_cases he : perms.isEmpty
          · simp [delegate_permissions, he] at ha
            exact ih v a ha p hp
          · simp [delegate_permissions, he] at ha
            exact ih v a ha p hp
      | createGroup n perms =>
          intro v a ha p hp
          simp [create_group] at ha
          exact ih v a ha p hp
      | deleteGroup n =>
          intro v a ha p hp
          simp [delete_group] at ha
          exact ih v a ha p hp
      | addToGroup u g =>
          intro v a ha p hp
          by_cases hg : (s1.groups g).isNone
          · simp [add_to_group, hg] at ha
            exact ih v a ha p hp
          · by_cases hm : g ∈ s1.userGroups u
            · simp [add_to_group, hg, hm] at ha
              exact ih v a ha p hp
            · simp [add_to_group, hg, hm] at ha
              exact ih v a ha p hp
      | removeFromGroup u g =>
          intro v a ha p hp
          simp [remove_from_group] at ha
          exact ih v a ha p hp
      | createPolicy pol =>
          intro v a ha p hp
          simp [create_access_policy] at ha
          exact ih v a ha p hp
      | setCredential u c =>
          intro v a ha p hp
          simp [set_user_credential] at ha
          exact ih v a ha p hp
      | setSensitivity rid lvl =>
          intro v a ha p hp
          simp [set_record_sensitivity] at ha
          exact ih v a ha p hp
      | tick t =>
          intro v a ha p hp
          simp [set_ledger_time] at ha
          exact ih v a ha p hp

theorem reachable_overlays_disjoint_witness :
    overlays_disjoint (assign_role empty_store 0 Role.Admin 0) :=
  reachable_overlays_disjoint _
    (Reachable.step Reachable.empty (Step.assignRole empty_store 0 Role.Admin 0))


theorem has_permission_of_active {s : Store} {u : Addr} {a : RoleAssignment}
    (h : get_active_assignment s u = some a) (q : Permission) :
    has_permission s u q =
      if q ∈ a.custom_revokes then false
      else if q ∈ a.custom_grants then true
      else if q ∈ get_base_permissions a.role then true
      else group_permission_check s u q := by
  unfold has_permission
  rw [h]

theorem has_permission_of_none {s : Store} {u : Addr}
    (h : get_active_assignment s u = none) (q : Permission) :
    has_permission s u q = group_permission_check s u q := by
  unfold has_permission
  rw [h]

theorem group_permission_check_congr {s t : Store} {u : Addr}
    (hgroups : s.userGroups u = t.userGroups u)
    (hgrp : ∀ g, s.groups g = t.groups g) (q : Permission) :
    group_permission_check s u q = group_permission_check t u q := by
  unfold group_permission_check
  rw [hgroups]
  have hfun : (fun g => decide (q ∈ get_group_permissions s g)) =
      (fun g => decide (q ∈ get_group_permissions t g)) := by
    funext g
    unfold get_group_permissions
    rw [hgrp g]
  rw [hfun]

theorem has_permission_equiv {s t : Store} {u : Addr}
    (htime : s.ledgerTime = t.ledgerTime)
    (hgroups : s.userGroups u = t.userGroups u)
    (hgrp : ∀ g, s.groups g = t.groups g)
    (hassign : (s.assignments u = none ∧ t.assignments u = none) ∨
      (∃ a b, s.assignments u = some a ∧ t.assignments u = some b ∧
        a.role = b.role ∧ a.expires_at = b.expires_at ∧
        (∀ q, q ∈ a.custom_grants ↔ q ∈ b.custom_grants) ∧
        (∀ q, q ∈ a.custom_revokes ↔ q ∈ b.custom_revokes))) :
    ∀ q, has_permission s u q = has_permission t u q := by
  intro q
  have hgc := group_permission_check_congr hgroups hgrp q
  rcases hassign with ⟨hsn, htn⟩ | ⟨a, b, hsa, hta, hrole, hexp, hg, hr⟩
  · have h1 : get_active_assignment s u = none := by simp [get_active_assignment, hsn]
    have h2 : get_active_assignment t u = none := by simp [get_active_assignment, htn]
    rw [has_permission_of_none h1 q, has_permission_of_none h2 q, hgc]
  · by_cases hc : a.expires_at = 0 ∨ a.expires_at > s.ledgerTime
    · have hc2 : b.expires_at = 0 ∨ b.expires_at > t.ledgerTime := by omega
      have h1 : get_active_assignment s u = some a := by
        simp [get_active_assignment, hsa, hc]
      have h2 : get_active_assignment t u = some b := by
        simp [get_active_assignment, hta, hc2]
      rw [has_permission_of_active h1 q, has_permission_of_active h2 q]
      by_cases hq1 : q ∈ a.custom_revokes
      · rw [if_pos hq1, if_pos ((hr q).mp hq1)]
      · rw [if_neg hq1, if_neg (fun hx => hq1 ((hr q).mpr hx))]
        by_cases hq2 : q ∈ a.custom_grants
        · rw [if_pos hq2, if_pos ((hg q).mp hq2)]
        · rw [if_neg hq2, if_neg (fun hx => hq2 ((hg q).mpr hx))]
          rw [hrole]
          by_cases hq3 : q ∈ get_base_permissions b.role
          · rw [if_pos hq3, if_pos hq3]
          · rw [if_neg hq3, if_neg hq3, hgc]
    · have hc2 : ¬(b.expires_at = 0 ∨ b.expires_at > t.ledgerTime) := by omega
      have h1 : get_active_assignment s u = none := by
        simp [get_active_assignment, hsa, hc]
      have h2 : get_active_assignment t u = none := by
        simp [get_active_assignment, hta, hc2]
      rw [has_permission_of_none h1 q, has_permission_of_none h2 q, hgc]

theorem grant_result {s : Store} {u : Addr} {p : Permission} {a : RoleAssignment}
    (ha : get_active_assignment s u = some a) :
    (grant_custom_permission s u p).2 =
      { s with assignments := fun x =>
          if x = u then
            some { a with
              custom_revokes := a.custom_revokes.filter (fun r => decide (r ≠ p)),
              custom_grants :=
                if p ∈ a.custom_grants then a.custom_grants else a.custom_grants ++ [p] }
          else s.assignments x } := by
  simp [grant_custom_permission, ha]

theorem revoke_result {s : Store} {u : Addr} {p : Permission} {a : RoleAssignment}
    (ha : get_active_assignment s u = some a) :
    (revoke_custom_permission s u p).2 =
      { s with assignments := fun x =>
          if x = u then
            some { a with
              custom_grants := a.custom_grants.filter (fun g => decide (g ≠ p)),
              custom_revokes :=
                if p ∈ a.custom_revokes then a.custom_revokes else a.custom_revokes ++ [p] }
          else s.assignments x } := by
  simp [revoke_custom_permission, ha]


/-- C7: for a user with an active assignment, granting a permission and then
revoking it leaves every has_permission observation (any user, any
permission) identical to revoking alone: revoke is dominant over a prior
grant. -/
theorem grant_then_revoke_eq_revoke (s : Store) (u : Addr) (p : Permission)
    (h : (get_active_assignment s u).isSome = true) :
    ∀ (v : Addr) (q : Permission),
      has_permission (revoke_custom_permission (grant_custom_permission s u p).2 u p).2 v q =
      has_permission (revoke_custom_permission s u p).2 v q := by
  obtain ⟨a, ha⟩ := Option.isSome_iff_exists.mp h
  have hc := get_active_assignment_active ha
  have hs1 := grant_result (p := p) ha
  have hga1 : get_active_assignment (grant_custom_permission s u p).2 u =
      some { a with
        custom_revokes := a.custom_revokes.filter (fun r => decide (r ≠ p)),
        custom_grants :=
          if p ∈ a.custom_grants then a.custom_grants else a.custom_grants ++ [p] } := by
    rw [hs1]
    simp [get_active_assignment, hc]
  have hs2 := revoke_result (p := p) hga1
  have hs3 := revoke_result (p := p) ha
  intro v q
  rw [hs2, hs1, hs3]
  apply has_permission_equiv
  · rfl
  · rfl
  · intro g; rfl
  · by_cases hv : v = u
    · right
      refine ⟨{ a with
          custom_grants := (if p ∈ a.custom_grants then a.custom_grants
            else a.custom_grants ++ [p]).filter (fun g => decide (g ≠ p)),
          custom_revokes :=
            if p ∈ a.custom_revokes.filter (fun r => decide (r ≠ p)) then
              a.custom_revokes.filter (fun r => decide (r ≠ p))
            else a.custom_revokes.filter (fun r => decide (r ≠ p)) ++ [p] },
        { a with
          custom_grants := a.custom_grants.filter (fun g => decide (g ≠ p)),
          custom_revokes :=
            if p ∈ a.custom_revokes then a.custom_revokes
            else a.custom_revokes ++ [p] },
        by simp [hv], by simp [hv], rfl, rfl, ?_, ?_⟩
      · intro r
        have hfil : (if p ∈ a.custom_grants then a.custom_grants
            else a.custom_grants ++ [p]).filter (fun g => decide (g ≠ p)) =
            a.custom_grants.filter (fun g => decide (g ≠ p)) := by
          by_cases hpg : p ∈ a.custom_grants
          · rw [if_pos hpg]
          · rw [if_neg hpg, List.filter_append]
            simp
        simp only [hfil]
      · intro r
        have hnotmem : ¬ p ∈ a.custom_revokes.filter (fun x => decide (x ≠ p)) := by
          simp [List.mem_filter]
        rw [if_neg hnotmem]
        by_cases hpr : p ∈ a.custom_revokes
        · rw [if_pos hpr]
          simp only [List.mem_filter, List.mem_append, List.mem_singleton,
            decide_eq_true_eq]
          constructor
          · rintro (⟨h1, _⟩ | h1)
            · exact h1
            · rw [h1]; exact hpr
          · intro h1
            by_cases hrp : r = p
            · right; exact hrp
            · left; exact ⟨h1, hrp⟩
        · rw [if_neg hpr]
          simp only [List.mem_filter, List.mem_append, List.mem_singleton,
            decide_eq_true_eq]
          constructor
          · rintro (⟨h1, _⟩ | h1)
            · left; exact h1
            · right; exact h1
          · rintro (h1 | h1)
            · by_cases hrp : r = p
              · right; exact hrp
              · left; exact ⟨h1, hrp⟩
            · right; exact h1
    · cases hsv : s.assignments v with
      | none =>
          left
          constructor <;> simp [hv, hsv]
      | some c =>
          right
          refine ⟨c, c, ?_, ?_, rfl, rfl, fun r => Iff.rfl, fun r => Iff.rfl⟩ <;>
            simp [hv, hsv]

theorem grant_then_revoke_eq_revoke_witness :
    has_permission
        (revoke_custom_permission
          (grant_custom_permission c7_store 0 Permission.WriteRecord).2
          0 Permission.WriteRecord).2 0 Permission.WriteRecord =
      has_permission (revoke_custom_permission c7_store 0 Permission.WriteRecord).2
        0 Permission.WriteRecord :=
  grant_then_revoke_eq_revoke c7_store 0 Permission.WriteRecord (by decide) 0
    Permission.WriteRecord

end VisionRbac
